import Mathlib

/-!
Verification of sunwu57/github-release-downloader (Go).

The Go sources are shallowly embedded as pure Lean functions.  Strings are
Lean `String`s (the repository only handles ASCII paths and tags, for which
Go's `strings.ToLower` agrees with `String.toLower`).  Filesystem and
network effects are passed in explicitly: the filesystem is a map from path
to contents, HTTP responses and extraction/move outcomes are oracle
arguments, and the nondeterministic collection order of the concurrent
download pool is the order of the collected result list.
-/

namespace GithubReleaseDownloader

/-- Go `path/filepath.Ext`: the suffix of the final slash-separated element
beginning at its final dot, or `""` when that element has no dot.
Scans the reversed character list, mirroring the Go loop that walks
backwards until a path separator. -/
def extAux : List Char → List Char → String
  | [], _ => ""
  | c :: rest, acc =>
    if c = '/' then ""
    else if c = '.' then String.mk ('.' :: acc)
    else extAux rest (c :: acc)

/-- Go `filepath.Ext` on a whole path string. -/
def goExt (p : String) : String := extAux p.toList.reverse []

/-- Go `strings.ToLower` restricted to the ASCII names this library handles:
lower-case every character. -/
def goToLower (s : String) : String := String.mk (s.data.map Char.toLower)

/-- Helper for `goContains`: does `sub` occur as a contiguous run in the list? -/
def containsAux (sub : List Char) : List Char → Bool
  | [] => sub.isEmpty
  | c :: t => sub.isPrefixOf (c :: t) || containsAux sub t

/-- Go `strings.Contains s sub`. -/
def goContains (s sub : String) : Bool := containsAux sub.data s.data

/-- Go `strings.HasPrefix s pre`. -/
def goHasPfx (s pre : String) : Bool := pre.data.isPrefixOf s.data

/-- Go `strings.TrimPrefix s pre`: drop the leading `pre` when present,
otherwise return `s` unchanged. -/
def goTrimPfx (s pre : String) : String :=
  if goHasPfx s pre then String.mk (s.data.drop pre.data.length) else s

/-- Go `strings.TrimSuffix s suf`: drop the trailing `suf` when present,
otherwise return `s` unchanged. -/
def goTrimSuffix (s suf : String) : String :=
  if suf.data.isSuffixOf s.data then String.mk (s.data.take (s.data.length - suf.data.length))
  else s

/-- The archive format selected by `extractFile` (fileutil.go, lines 17-53):
Go computes `ext := strings.ToLower(filepath.Ext(filePath))` and switches on
`".zip"`, `".tar.gz", ".tgz"`, `".gz"`, default. -/
inductive ArchiveKind where
  | zip
  | tarGz
  | gz
  | unsupported (ext : String)
deriving DecidableEq

/-- The dispatch performed by `extractFile` in fileutil.go. -/
def extractDispatch (filePath : String) : ArchiveKind :=
  let ext := goToLower (goExt filePath)
  if ext = ".zip" then .zip
  else if ext = ".tar.gz" ∨ ext = ".tgz" then .tarGz
  else if ext = ".gz" then .gz
  else .unsupported ext

/-- The extraction directory computed by `extractTarGz` (fileutil.go line 139):
`strings.TrimSuffix(filePath, filepath.Ext(strings.TrimSuffix(filePath, filepath.Ext(filePath))))`. -/
def tarGzExtractedDir (filePath : String) : String :=
  goTrimSuffix filePath (goExt (goTrimSuffix filePath (goExt filePath)))

/-- The fields of `github.ReleaseAsset` this library reads (name, browser
download URL, size). -/
structure ReleaseAsset where
  name : String
  browserDownloadURL : String
  size : Int
deriving DecidableEq

/-- The OS alias table built inside `getReleaseAssets` (src/unnamed/part_000,
lines 176-183). -/
def osMap : List (String × List String) :=
  [("linux", ["linux", "gnu", "gnulinux"]),
   ("darwin", ["darwin", "mac", "osx"]),
   ("windows", ["windows", "win"]),
   ("freebsd", ["freebsd", "bsd"]),
   ("openbsd", ["openbsd", "bsd"]),
   ("netbsd", ["netbsd", "bsd"])]

/-- The architecture alias table built inside `getReleaseAssets`
(src/unnamed/part_000, lines 186-198). -/
def archMap : List (String × List String) :=
  [("amd64", ["amd64", "x86_64", "64bit"]),
   ("386", ["386", "i386", "x86", "32bit"]),
   ("arm", ["arm", "armv5", "armv6", "armv7"]),
   ("arm64", ["arm64", "aarch64"]),
   ("mips", ["mips"]),
   ("mipsle", ["mipsle", "mips32le"]),
   ("mips64", ["mips64"]),
   ("mips64le", ["mips64le"]),
   ("ppc64", ["ppc64", "powerpc64"]),
   ("ppc64le", ["ppc64le", "powerpc64le"]),
   ("s390x", ["s390x", "s390"])]

/-- Go map lookup `m[k]` with its `exists` flag, for the two alias tables. -/
def lookupAliases (m : List (String × List String)) (k : String) : Option (List String) :=
  (m.find? (fun p => p.1 == k)).map (fun p => p.2)

/-- OS match test of `getReleaseAssets`: when the running OS is in the alias
table, some alias occurs in the lower-cased name; otherwise fall back to a
substring test against the raw OS name. -/
def osMatchedB (currentOS lowerName : String) : Bool :=
  match lookupAliases osMap currentOS with
  | some aliases => aliases.any (fun a => goContains lowerName a)
  | none => goContains lowerName currentOS

/-- Architecture match test of `getReleaseAssets`, same shape as the OS test. -/
def archMatchedB (currentArch lowerName : String) : Bool :=
  match lookupAliases archMap currentArch with
  | some aliases => aliases.any (fun a => goContains lowerName a)
  | none => goContains lowerName currentArch

/-- Per-asset test of the selection loop: lower-case the asset name and
require both an OS match and an architecture match. -/
def assetMatches (currentOS currentArch : String) (a : ReleaseAsset) : Bool :=
  let lowerName := goToLower a.name
  osMatchedB currentOS lowerName && archMatchedB currentArch lowerName

/-- `getReleaseAssets` (src/unnamed/part_000, lines 142-254), parameterised by
`runtime.GOOS` and `runtime.GOARCH`: lists of length at most one are returned
unchanged; otherwise keep the assets matching the current platform, and when
none match return the first asset alone. -/
def getReleaseAssets (currentOS currentArch : String) (assets : List ReleaseAsset) :
    List ReleaseAsset :=
  if assets.length ≤ 1 then assets
  else
    let matched := assets.filter (assetMatches currentOS currentArch)
    if matched.isEmpty then assets.take 1 else matched

/-- GitHub source archive URL built by `getSourceCodeURL`
(src/unnamed/part_000, line 87). -/
def sourceURL (owner repo tag : String) : String :=
  "https://github.com/" ++ owner ++ "/" ++ repo ++ "/archive/refs/tags/" ++ tag ++ ".tar.gz"

/-- `getSourceCodeURL` (src/unnamed/part_000, lines 75-97).  The network
resolution of the latest release is the oracle argument `latest`: its tag on
success, or the propagated error. -/
def getSourceCodeURL (latest : Except String String) (owner repo tag : String) :
    Except String String :=
  if tag = "" then
    match latest with
    | .error e => .error e
    | .ok t => .ok (sourceURL owner repo t)
  else .ok (sourceURL owner repo tag)

/-- `IsLatestVersion` (src/unnamed/part_000, lines 110-139): resolve the
latest tag (oracle `latest`), strip one leading "v" from both versions, and
compare for equality.  A resolution failure is returned as the error. -/
def IsLatestVersion (latest : Except String String) (currentVersion : String) :
    Except String Bool :=
  match latest with
  | .error e => .error e
  | .ok latestVersion => .ok (goTrimPfx currentVersion "v" == goTrimPfx latestVersion "v")

/-- Go `filepath.Join dir name` for a non-empty, already-clean directory and
a relative name without `.` or `..` segments — the only shapes this library
builds. -/
def goJoin (dir name : String) : String := dir ++ "/" ++ name

/-- Helper for `goBase`: walk the reversed characters until a separator. -/
def baseAux : List Char → List Char → String
  | [], acc => String.mk acc
  | c :: rest, acc => if c = '/' then String.mk acc else baseAux rest (c :: acc)

/-- Go `filepath.Base` for the clean, non-empty paths this library builds:
the final slash-separated element. -/
def goBase (p : String) : String := baseAux p.data.reverse []

/-- `downloadResult` (downloader.go, lines 20-23).  `err = none` marks a
successful download carrying its local path. -/
structure DownloadResult where
  filePath : String
  err : Option String
deriving DecidableEq

/-- The `filePaths` slice accumulated by the collection loop of
`downloadAssets` (downloader.go, lines 380-389): the local paths of the
successful outcomes, in drain order. -/
def successPaths (results : List DownloadResult) : List String :=
  results.filterMap fun r =>
    match r.err with
    | none => some r.filePath
    | some _ => none

/-- The `errors` slice accumulated by the same loop, in drain order. -/
def collectedErrors (results : List DownloadResult) : List String :=
  results.filterMap fun r => r.err

/-- Result collection of `downloadAssets` (downloader.go, lines 379-411) over
the outcomes drained from the completion channel, in drain order: gather the
successful paths and the errors; when errors exist and no path succeeded,
fail with the first collected error wrapped; otherwise return the paths. -/
def downloadAssets (results : List DownloadResult) : Except String (List String) :=
  let filePaths := successPaths results
  let errors := collectedErrors results
  match errors with
  | [] => .ok filePaths
  | e :: _ => if filePaths.isEmpty then .error ("所有资产下载失败: " ++ e) else .ok filePaths

/-- The version-record path `<cacheDir>/<owner>-<repo>-version.txt`
(downloader.go, lines 41 and 108). -/
def versionFilePath (cacheDir owner repo : String) : String :=
  goJoin cacheDir (owner ++ "-" ++ repo ++ "-version.txt")

/-- The cache-record write (downloader.go, lines 107-115): `os.WriteFile` of
the tag bytes, over a filesystem modelled as a map from path to contents. -/
def recordVersion (fs : String → Option String) (cacheDir owner repo tag : String) :
    String → Option String :=
  fun p => if p = versionFilePath cacheDir owner repo then some tag else fs p

/-- The up-to-date check (downloader.go, lines 42-45): the record file exists,
is readable, and its entire contents equal the candidate tag exactly. -/
def isUpToDate (fs : String → Option String) (cacheDir owner repo candidate : String) : Bool :=
  match fs (versionFilePath cacheDir owner repo) with
  | some contents => contents == candidate
  | none => false

/-- The one HTTP response `downloadWithBuffer` consumes: a status code and
the successive reads of the body, each a chunk of bytes or a read error. -/
structure HTTPResponse where
  statusCode : Nat
  body : List (Except String (List Nat))

/-- The read-write loop of `downloadWithBuffer` (downloader.go, lines
497-529): append chunks until the reader reports end of stream; a read error
aborts the transfer. -/
def readLoop : List (Except String (List Nat)) → List Nat → Except String (List Nat)
  | [], acc => .ok acc
  | .error e :: _, _ => .error ("读取数据失败: " ++ e)
  | .ok chunk :: rest, acc => readLoop rest (acc ++ chunk)

/-- `downloadWithBuffer` (downloader.go, lines 447-554) after its single GET:
the function consumes exactly one response (no retry by construction); a
status code other than 200 is an immediate terminal error, otherwise the body
is streamed to the destination, whose final contents are returned. -/
def downloadWithBuffer (resp : HTTPResponse) : Except String (List Nat) :=
  if resp.statusCode ≠ 200 then .error ("下载失败，状态码: " ++ toString resp.statusCode)
  else readLoop resp.body []

/-- The path returned by the `CheckLatest` short-circuit of
`DownloadLatestRelease` (downloader.go, line 51): `<cacheDir>/<owner>-<repo>`. -/
def latestCachedReturnPath (cacheDir owner repo : String) : String :=
  goJoin cacheDir (owner ++ "-" ++ repo)

/-- The local path `downloadAsset` writes to (downloader.go, lines 424-426):
`<cacheDir>/<assetName>`. -/
def assetDownloadPath (cacheDir assetName : String) : String := goJoin cacheDir assetName

/-- The directory a multi-asset release is moved into (downloader.go,
line 121): `<cacheDir>/<owner>-<repo>-<tag>`. -/
def multiAssetDirPath (cacheDir owner repo tag : String) : String :=
  goJoin cacheDir (owner ++ "-" ++ repo ++ "-" ++ tag)

/-- The configuration fields read by the modelled download tails (options.go);
the transport-tuning fields are consumed only by the external collaborators. -/
structure Options where
  cacheDir : String
  autoExtract : Bool
  targetDir : String

/-- The shared single-file tail of `DownloadLatestRelease`,
`DownloadSpecificRelease` and `DownloadSourceCode` (downloader.go, lines
76-104, 205-234 and 303-330): optionally extract (a failure keeps the archive
path), then optionally move to the target directory (a failure keeps the
current path).  Extraction and move outcomes are the oracle arguments. -/
def finalizeSingleFile (opts : Options) (extract : String → Except String String)
    (move : String → String → Except String Unit) (filePath : String) : String :=
  let p1 := if opts.autoExtract then
      match extract filePath with
      | .ok extracted => extracted
      | .error _ => filePath
    else filePath
  if opts.targetDir ≠ "" ∧ opts.targetDir ≠ opts.cacheDir then
    let target := goJoin opts.targetDir (goBase p1)
    match move p1 target with
    | .ok _ => target
    | .error _ => p1
  else p1

/-- `DownloadSourceCode` (downloader.go, lines 281-333): build the source
URL, download `<cacheDir>/<owner>-<repo>-<tag>.tar.gz`, then run the shared
single-file tail. -/
def DownloadSourceCode (opts : Options) (latest : Except String String)
    (download : String → String → Except String Unit)
    (extract : String → Except String String)
    (move : String → String → Except String Unit)
    (owner repo tag : String) : Except String String :=
  match getSourceCodeURL latest owner repo tag with
  | .error e => .error e
  | .ok url =>
    let filePath := goJoin opts.cacheDir (owner ++ "-" ++ repo ++ "-" ++ tag ++ ".tar.gz")
    match download url filePath with
    | .error e => .error ("下载源代码失败: " ++ e)
    | .ok _ => .ok (finalizeSingleFile opts extract move filePath)

end GithubReleaseDownloader

namespace GithubReleaseDownloader

/-- C1: the claim says a path whose lower-cased suffix is `.tar.gz` or `.tgz`
gets tar-over-gzip extraction into a directory distinct from the archive.
In the code, `filepath.Ext` of a `.tar.gz` path is `".gz"`, so dispatch picks
the plain-gzip branch (the `".tar.gz"` switch case is unreachable); and for a
`.tgz` path the tar extraction directory computed by `extractTarGz` equals the
archive path itself. -/
theorem extractFile_tarGz_divergence :
    extractDispatch "/tmp/pkg.tar.gz" = ArchiveKind.gz
    ∧ extractDispatch "/tmp/pkg.tgz" = ArchiveKind.tarGz
    ∧ tarGzExtractedDir "/tmp/pkg.tgz" = "/tmp/pkg.tgz" := by
  refine ⟨?_, ?_, ?_⟩ <;> decide

/-- C3: for a list of at least two assets, the selector returns exactly the
order-preserving sublist of assets whose lower-cased names contain both an OS
alias and an architecture alias when that sublist is non-empty, and the
one-element list holding the first input asset when it is empty. -/
theorem getReleaseAssets_platform_filter (currentOS currentArch : String)
    (assets : List ReleaseAsset) (h2 : 2 ≤ assets.length) :
    (assets.filter (assetMatches currentOS currentArch)).Sublist assets
    ∧ (assets.filter (assetMatches currentOS currentArch) ≠ [] →
        getReleaseAssets currentOS currentArch assets
          = assets.filter (assetMatches currentOS currentArch))
    ∧ (assets.filter (assetMatches currentOS currentArch) = [] →
        ∀ a rest, assets = a :: rest →
          getReleaseAssets currentOS currentArch assets = [a]) := by
  have hlen : ¬ assets.length ≤ 1 := by omega
  refine ⟨List.filter_sublist assets, ?_, ?_⟩
  · intro hne
    simp [getReleaseAssets, hlen, List.isEmpty_iff, hne]
  · intro hemp a rest hcons
    subst hcons
    simp [getReleaseAssets, hlen, List.isEmpty_iff, hemp]

/-- Witness for C3 at a concrete two-asset list on linux/amd64: the single
matching asset is selected. -/
theorem getReleaseAssets_platform_filter_witness :
    getReleaseAssets "linux" "amd64"
        [⟨"tool-linux-amd64.tar.gz", "u1", 1⟩, ⟨"tool-windows-amd64.zip", "u2", 2⟩]
      = [⟨"tool-linux-amd64.tar.gz", "u1", 1⟩] := by
  have h := (getReleaseAssets_platform_filter "linux" "amd64"
      [⟨"tool-linux-amd64.tar.gz", "u1", 1⟩, ⟨"tool-windows-amd64.zip", "u2", 2⟩]
      (by decide)).2.1 (by decide)
  rw [h]
  decide

/-- C4: for an asset list of size 0 or 1 the selector is the identity and
performs no platform matching. -/
theorem getReleaseAssets_small_identity (currentOS currentArch : String)
    (assets : List ReleaseAsset) (h : assets.length ≤ 1) :
    getReleaseAssets currentOS currentArch assets = assets := by
  simp [getReleaseAssets, h]

/-- Witness for C4 at a concrete one-asset list. -/
theorem getReleaseAssets_small_identity_witness :
    getReleaseAssets "plan9" "riscv64" [⟨"only-asset.bin", "u", 7⟩]
      = [⟨"only-asset.bin", "u", 7⟩] :=
  getReleaseAssets_small_identity "plan9" "riscv64" [⟨"only-asset.bin", "u", 7⟩] (by decide)

/-- C8: for a non-empty tag the source-archive URL is the pure string
`https://github.com/{owner}/{repo}/archive/refs/tags/{tag}.tar.gz`,
independent of the release resolver (no network call); for an empty tag the
latest tag is resolved and substituted, and a resolution failure propagates. -/
theorem getSourceCodeURL_spec (latest : Except String String) (owner repo tag : String) :
    (tag ≠ "" → ∀ latest2 : Except String String,
      getSourceCodeURL latest2 owner repo tag = .ok (sourceURL owner repo tag))
    ∧ (tag = "" →
        (∀ t, latest = .ok t →
          getSourceCodeURL latest owner repo tag = .ok (sourceURL owner repo t))
        ∧ (∀ e, latest = .error e →
          getSourceCodeURL latest owner repo tag = .error e)) := by
  refine ⟨fun hne latest2 => ?_, fun hemp => ⟨fun t ht => ?_, fun e he => ?_⟩⟩
  · simp [getSourceCodeURL, hne]
  · simp [getSourceCodeURL, hemp, ht]
  · simp [getSourceCodeURL, hemp, he]

/-- Witness for C8 at concrete values, exercising both the non-empty-tag and
the empty-tag paths. -/
theorem getSourceCodeURL_spec_witness :
    getSourceCodeURL (.error "offline") "golang" "go" "go1.21.0"
        = .ok "https://github.com/golang/go/archive/refs/tags/go1.21.0.tar.gz"
    ∧ getSourceCodeURL (.error "offline") "golang" "go" "" = .error "offline" := by
  constructor
  · have h := (getSourceCodeURL_spec (.error "offline") "golang" "go" "go1.21.0").1
      (by decide) (.error "offline")
    rw [h]
    exact congrArg Except.ok (by decide)
  · exact (getSourceCodeURL_spec (.error "offline") "golang" "go" "").2 rfl
      |>.2 "offline" rfl

/-- C10: when the latest tag resolves, `IsLatestVersion` answers true exactly
when the current version and the latest tag agree after one leading "v" is
stripped from each (when present). -/
theorem isLatestVersion_trimmed_eq (latest : Except String String)
    (currentVersion l : String) (h : latest = .ok l) :
    IsLatestVersion latest currentVersion = .ok true
      ↔ goTrimPfx currentVersion "v" = goTrimPfx l "v" := by
  subst h
  simp [IsLatestVersion, beq_iff_eq]

/-- Witness for C10: "v1.2.3" is reported latest when the latest tag is
"1.2.3". -/
theorem isLatestVersion_trimmed_eq_witness :
    IsLatestVersion (.ok "1.2.3") "v1.2.3" = .ok true :=
  (isLatestVersion_trimmed_eq (.ok "1.2.3") "v1.2.3" "1.2.3" rfl).mpr (by decide)

/-- Helper: joining two names under the same directory gives equal paths
exactly when the names are equal. -/
theorem goJoin_eq_iff (dir a b : String) : goJoin dir a = goJoin dir b ↔ a = b := by
  constructor
  · intro h
    have hd : (dir ++ "/").data ++ a.data = (dir ++ "/").data ++ b.data := by
      have hdata := congrArg String.data h
      simpa [goJoin, String.data_append] using hdata
    have hab := List.append_cancel_left hd
    cases a
    cases b
    exact congrArg String.mk hab
  · intro h
    rw [h]

/-- C2: over the outcomes collected (in drain order) from a non-empty task
batch: when every task failed, `downloadAssets` returns an error wrapping the
first collected failure and no paths; when at least one succeeded, it returns
exactly the successful paths with no error. -/
theorem downloadAssets_failure_policy (results : List DownloadResult)
    (hne : results ≠ []) :
    ((∀ r ∈ results, r.err ≠ none) →
      ∃ e rest, collectedErrors results = e :: rest
        ∧ downloadAssets results = .error ("所有资产下载失败: " ++ e))
    ∧ ((∃ r ∈ results, r.err = none) →
      downloadAssets results = .ok (successPaths results)) := by
  constructor
  · intro hall
    have hpaths : successPaths results = [] := by
      rw [successPaths, List.filterMap_eq_nil_iff]
      intro r hr
      cases h : r.err with
      | none => exact absurd h (hall r hr)
      | some e => simp
    obtain ⟨r, rest, rfl⟩ := List.exists_cons_of_ne_nil hne
    cases herr : r.err with
    | none => exact absurd herr (hall r (by simp))
    | some e =>
      refine ⟨e, collectedErrors rest, ?_, ?_⟩
      · simp [collectedErrors, List.filterMap_cons, herr]
      · simp [downloadAssets, collectedErrors, List.filterMap_cons, herr, hpaths]
  · rintro ⟨r, hr, herr⟩
    have hmem : r.filePath ∈ successPaths results := by
      rw [successPaths, List.mem_filterMap]
      exact ⟨r, hr, by simp [herr]⟩
    have hne2 : successPaths results ≠ [] := by
      intro h
      rw [h] at hmem
      simp at hmem
    cases herrs : collectedErrors results with
    | nil => simp [downloadAssets, herrs]
    | cons e es => simp [downloadAssets, herrs, List.isEmpty_iff, hne2]

/-- Witness for C2 at a concrete mixed batch: one success among one failure
yields exactly the successful path and no error. -/
theorem downloadAssets_failure_policy_witness :
    downloadAssets [⟨"", some "timeout"⟩, ⟨"/cache/a.zip", none⟩]
      = .ok ["/cache/a.zip"] := by
  have h := (downloadAssets_failure_policy
      [⟨"", some "timeout"⟩, ⟨"/cache/a.zip", none⟩] (by decide)).2
      ⟨⟨"/cache/a.zip", none⟩, by decide, rfl⟩
  rw [h]
  exact congrArg Except.ok (by decide)

/-- C5: immediately after the cache record for (owner, repo) is written with
tag `T`, the up-to-date check answers true for `T` and false for any other
tag; the comparison is strict string equality of the record file's contents
with no prefix normalization. -/
theorem isUpToDate_after_record (fs : String → Option String)
    (cacheDir owner repo T T2 : String) (hne : T2 ≠ T) :
    isUpToDate (recordVersion fs cacheDir owner repo T) cacheDir owner repo T = true
    ∧ isUpToDate (recordVersion fs cacheDir owner repo T) cacheDir owner repo T2 = false := by
  constructor
  · simp [isUpToDate, recordVersion]
  · simp [isUpToDate, recordVersion, beq_eq_false_iff_ne]
    exact Ne.symm hne

/-- Witness for C5: after recording "1.0.0", the check is true for "1.0.0"
and false for "v1.0.0" (no leading-v normalization). -/
theorem isUpToDate_after_record_witness :
    isUpToDate (recordVersion (fun _ => none) "/cache" "foo" "bar" "1.0.0")
        "/cache" "foo" "bar" "1.0.0" = true
    ∧ isUpToDate (recordVersion (fun _ => none) "/cache" "foo" "bar" "1.0.0")
        "/cache" "foo" "bar" "v1.0.0" = false :=
  isUpToDate_after_record (fun _ => none) "/cache" "foo" "bar" "1.0.0" "v1.0.0" (by decide)

/-- Counterexample to C7: 204 is a 2xx status, yet the transfer treats it as
a status error — the code accepts exactly status 200. -/
theorem downloadWithBuffer_2xx_counterexample :
    200 ≤ 204 ∧ 204 < 300
    ∧ downloadWithBuffer ⟨204, []⟩ = .error "下载失败，状态码: 204" := by
  refine ⟨by decide, by decide, ?_⟩
  simp [downloadWithBuffer]
  decide

/-- C7 as amended: the transfer consumes a single GET response, a status
other than exactly 200 is a terminal error with no retry, and a 200 response
is not treated as a status error. -/
theorem downloadWithBuffer_status_200 (resp : HTTPResponse) :
    (resp.statusCode ≠ 200 →
      downloadWithBuffer resp = .error ("下载失败，状态码: " ++ toString resp.statusCode))
    ∧ (resp.statusCode = 200 → downloadWithBuffer resp = readLoop resp.body []) := by
  constructor <;> intro h <;> simp [downloadWithBuffer, h]

/-- Witness for amended C7: a 404 response errors, a 200 response streams
the body. -/
theorem downloadWithBuffer_status_200_witness :
    downloadWithBuffer ⟨404, []⟩ = .error "下载失败，状态码: 404"
    ∧ downloadWithBuffer ⟨200, [.ok [7]]⟩ = .ok [7] := by
  constructor
  · have h := (downloadWithBuffer_status_200 ⟨404, []⟩).1 (by decide)
    rw [h]
    exact congrArg Except.error (by decide)
  · have h := (downloadWithBuffer_status_200 ⟨200, [.ok [7]]⟩).2 rfl
    exact h.trans rfl

/-- Counterexample to C9: an asset literally named `<owner>-<repo>` is
downloaded to exactly the path the CheckLatest short-circuit returns. -/
theorem latestCachedPath_collision :
    latestCachedReturnPath "/cache" "foo" "bar" = assetDownloadPath "/cache" "foo-bar" := by
  decide

/-- C9 as amended: the short-circuit path `<cacheDir>/<owner>-<repo>` never
equals the multi-asset directory `<cacheDir>/<owner>-<repo>-<tag>`, and it
equals a single-asset download path `<cacheDir>/<assetName>` exactly when the
asset is named `<owner>-<repo>`. -/
theorem latestCachedPath_distinct (cacheDir owner repo tag assetName : String) :
    latestCachedReturnPath cacheDir owner repo ≠ multiAssetDirPath cacheDir owner repo tag
    ∧ (latestCachedReturnPath cacheDir owner repo = assetDownloadPath cacheDir assetName
        ↔ assetName = owner ++ "-" ++ repo) := by
  constructor
  · intro h
    have h2 : owner ++ "-" ++ repo = owner ++ "-" ++ repo ++ "-" ++ tag :=
      (goJoin_eq_iff _ _ _).mp h
    have hlen := congrArg String.length h2
    simp [String.length_append, show ("-" : String).length = 1 from rfl] at hlen
    omega
  · constructor
    · intro h
      exact ((goJoin_eq_iff _ _ _).mp h).symm
    · intro h
      simp [latestCachedReturnPath, assetDownloadPath, h]

/-- C6: when auto-extract is enabled and extraction of the downloaded archive
fails, the source-code download still succeeds and returns the path of the
un-extracted archive — the result is exactly what the extraction-disabled run
would return; the same holds for the shared single-file tail used by the
release download operations. -/
theorem sourceCode_extractionFailure_nonfatal (opts : Options)
    (latest : Except String String)
    (download : String → String → Except String Unit)
    (extract : String → Except String String)
    (move : String → String → Except String Unit)
    (owner repo tag msg : String)
    (htag : tag ≠ "")
    (hx : opts.autoExtract = true)
    (hdl : download (sourceURL owner repo tag)
        (goJoin opts.cacheDir (owner ++ "-" ++ repo ++ "-" ++ tag ++ ".tar.gz")) = .ok ())
    (hfail : extract (goJoin opts.cacheDir (owner ++ "-" ++ repo ++ "-" ++ tag ++ ".tar.gz"))
        = .error msg) :
    DownloadSourceCode opts latest download extract move owner repo tag
      = .ok (finalizeSingleFile { opts with autoExtract := false } extract move
          (goJoin opts.cacheDir (owner ++ "-" ++ repo ++ "-" ++ tag ++ ".tar.gz")))
    ∧ ∀ p m, extract p = .error m →
        finalizeSingleFile opts extract move p
          = finalizeSingleFile { opts with autoExtract := false } extract move p := by
  have hfin : ∀ p m, extract p = .error m →
      finalizeSingleFile opts extract move p
        = finalizeSingleFile { opts with autoExtract := false } extract move p := by
    intro p m hf
    simp [finalizeSingleFile, hx, hf]
  refine ⟨?_, hfin⟩
  simp [DownloadSourceCode, getSourceCodeURL, htag, hdl]
  exact hfin _ _ hfail

/-- Witness for C6 at concrete oracles: extraction always fails, yet the
source download returns the archive path successfully. -/
theorem sourceCode_extractionFailure_nonfatal_witness :
    DownloadSourceCode ⟨"/cache", true, ""⟩ (.error "unused")
        (fun _ _ => .ok ()) (fun _ => .error "boom") (fun _ _ => .ok ())
        "foo" "bar" "v1"
      = .ok "/cache/foo-bar-v1.tar.gz" := by
  have h := (sourceCode_extractionFailure_nonfatal ⟨"/cache", true, ""⟩ (.error "unused")
      (fun _ _ => .ok ()) (fun _ => .error "boom") (fun _ _ => .ok ())
      "foo" "bar" "v1" "boom" (by decide) rfl rfl rfl).1
  rw [h]
  simp [finalizeSingleFile]
  decide

end GithubReleaseDownloader
